import Mathlib

/- Verification of a tree-walking interpreter for a small scripting language:
   lexer, recursive-descent parser, environment chain and evaluator.
   The definitions below are a shallow embedding of the program's source
   (scanner.rs, parser.rs, environment.rs, interpreter.rs); machine floats
   are modelled as rationals. -/

namespace Lox

/- Token kinds, from token.rs. -/
inductive TokenType where
  | LeftParen | RightParen | LeftBrace | RightBrace
  | Comma | Dot | Minus | Plus | Semicolon | Slash | Star
  | Bang | BangEqual | Equal | EqualEqual
  | Greater | GreaterEqual | Less | LessEqual
  | Identifier | String | Number
  | And | Class | Else | False | Fun | For | If | Nil | Or
  | Print | Return | Super | This | True | Var | While
  | EOF
deriving DecidableEq, Repr

/- Literal payloads carried by tokens and literal expressions, from token.rs.
   The `f64` payload of `Number` is modelled as a rational. -/
inductive Literal where
  | Null
  | Identifier (s : String)
  | String (s : String)
  | Number (n : Rat)
  | True
  | False
deriving DecidableEq, Repr

/- A scanned token, from token.rs. -/
structure Token where
  token_type : TokenType
  lexeme : String
  literal : Literal
  line : Nat
  col : Nat
deriving DecidableEq, Repr

/- Expression nodes, from expr.rs. -/
inductive Expr where
  | Literal (l : Literal)
  | Unary (op : Token) (e : Expr)
  | Binary (left : Expr) (op : Token) (right : Expr)
  | Call (callee : Expr) (paren : Token) (args : List Expr)
  | Grouping (e : Expr)
  | Variable (t : Token)
  | Assign (t : Token) (e : Expr)
  | Logical (left : Expr) (op : Token) (right : Expr)

/- Statement nodes, from stmt.rs. -/
inductive Stmt where
  | VarDeclaration (t : Token) (e : Option Expr)
  | Print (e : Expr)
  | Expression (e : Expr)
  | Block (stmts : List Stmt)
  | If (cond : Expr) (thenB : Stmt) (elseB : Option Stmt)
  | While (cond : Expr) (body : Stmt)
  | Function (name : Token) (params : List Token) (body : List Stmt)

/- Runtime values, from interpreter.rs.  A native function's host callable
   is not representable; the program never registers one, so only its
   name and arity are kept. -/
inductive Value where
  | bool (b : Bool)
  | null
  | number (n : Rat)
  | string (s : String)
  | nativeFunction (name : String) (arity : Nat)
  | loxFunction (name : String) (body : List Stmt) (params : List Token) (arity : Nat)

/- Runtime errors, from interpreter.rs. -/
inductive RuntimeError where
  | BinaryOperationError
  | VariableNotFound
  | VariableNotInitialized
  | LogicalOperatorError
  | InvalidCall (msg : String)
deriving DecidableEq, Repr

/- A scope frame with an optional enclosing frame, from environment.rs.
   The HashMap is modelled as an association list (keyed lookup, insert
   overwrites in place). -/
inductive Environment where
  | mk (enclosing : Option Environment) (values : List (String × Option Value))

def Environment.enclosing : Environment → Option Environment
  | .mk e _ => e

def Environment.values : Environment → List (String × Option Value)
  | .mk _ v => v

/- Keyed lookup in one frame's map. -/
def valuesLookup : List (String × Option Value) → String → Option (Option Value)
  | [], _ => none
  | (k, w) :: rest, n => if k = n then some w else valuesLookup rest n

/- Keyed upsert in one frame's map (`entry(..).and_modify(..).or_insert(..)`). -/
def valuesSet : List (String × Option Value) → String → Option Value → List (String × Option Value)
  | [], n, v => [(n, v)]
  | (k, w) :: rest, n, v => if k = n then (k, v) :: rest else (k, w) :: valuesSet rest n v

/- `Environment::define`: insert or overwrite in the current frame. -/
def Environment.define : Environment → String → Option Value → Environment
  | .mk enc vals, n, v => .mk enc (valuesSet vals n v)

/- `Environment::assign`: mutate the first frame in the chain holding the
   name; error if no frame has it.  The returned environment models the
   state of `&mut self` after the call. -/
def Environment.assign : Environment → String → Value → Except RuntimeError Unit × Environment
  | .mk none vals, n, v =>
    match valuesLookup vals n with
    | some _ => (.ok (), .mk none (valuesSet vals n (some v)))
    | none => (.error .VariableNotFound, .mk none vals)
  | .mk (some e) vals, n, v =>
    match valuesLookup vals n with
    | some _ => (.ok (), .mk (some e) (valuesSet vals n (some v)))
    | none =>
      let r := e.assign n v
      (r.1, .mk (some r.2) vals)

/- `Environment::get`: search the chain; distinguish a missing name from a
   declared-but-uninitialized one. -/
def Environment.get : Environment → String → Except RuntimeError Value
  | .mk none vals, n =>
    match valuesLookup vals n with
    | some (some v) => .ok v
    | some none => .error .VariableNotInitialized
    | none => .error .VariableNotFound
  | .mk (some e) vals, n =>
    match valuesLookup vals n with
    | some (some v) => .ok v
    | some none => .error .VariableNotInitialized
    | none => e.get n

/- Display form of a value, from interpreter.rs (`impl Display for Value`). -/
def Value.display : Value → String
  | .number n => toString n
  | .string s => s
  | .null => "Null"
  | .bool b => toString b
  | .loxFunction nm _ _ _ => nm
  | .nativeFunction nm _ => nm

/- `Interpreter::is_truthy`. -/
def is_truthy : Value → Bool
  | .bool b => b
  | .number n => decide (n ≠ 0)
  | .string s => decide (s.length ≠ 0)
  | .null => false
  | .nativeFunction _ _ => false
  | .loxFunction _ _ _ _ => false

/- `Interpreter::interpret_binary`, the pure dispatch on operand values and
   operator kind (both operands already evaluated). -/
def interpret_binary : Value → TokenType → Value → Except RuntimeError Value
  | .number n1, .Minus, .number n2 => .ok (.number (n1 - n2))
  | .number n1, .Plus, .number n2 => .ok (.number (n1 + n2))
  | .string s1, .Plus, .string s2 => .ok (.string (String.join [s1, s2]))
  | .number n1, .Slash, .number n2 => .ok (.number (n1 / n2))
  | .number n1, .Star, .number n2 => .ok (.number (n1 * n2))
  | .number n1, .Greater, .number n2 => .ok (.bool (decide (n1 > n2)))
  | .number n1, .GreaterEqual, .number n2 => .ok (.bool (decide (n1 ≥ n2)))
  | .number n1, .Less, .number n2 => .ok (.bool (decide (n1 < n2)))
  | .number n1, .LessEqual, .number n2 => .ok (.bool (decide (n1 ≤ n2)))
  | .number n1, .BangEqual, .number n2 => .ok (.bool (decide (n1 ≠ n2)))
  | .number n1, .EqualEqual, .number n2 => .ok (.bool (decide (n1 = n2)))
  | _, _, _ => .error .BinaryOperationError

/- Binding loop of `LoxFunction::call`: each argument is bound to
   `params[i]`; an argument past the end of the parameter list indexes out
   of bounds, which is a panic (`none`). -/
def bindLoop : List Value → List Token → Environment → Option Environment
  | [], _, env => some env
  | _ :: _, [], _ => none
  | a :: rest, p :: ps, env => bindLoop rest ps (env.define p.lexeme (some a))

/- Interpreter state: the current environment plus the lines written to
   standard output. -/
structure InterpState where
  environment : Environment
  output : List String

/- The pending work of the evaluator: an expression, an argument list, a
   statement, a statement list, a block with an optional supplied frame, or
   a user-function call. -/
inductive Job where
  | expr (e : Expr)
  | args (es : List Expr) (acc : List Value)
  | stmt (st : Stmt)
  | stmts (l : List Stmt)
  | block (l : List Stmt) (envOpt : Option Environment)
  | call (name : String) (body : List Stmt) (params : List Token) (arity : Nat) (vs : List Value)

/- Evaluation results.  `panic` models a Rust panic (a failed `expect` or an
   out-of-bounds index); `fuelOut` marks exhausted fuel and is not a
   behavior of the source. -/
inductive Res where
  | val (v : Value) (s : InterpState)
  | vals (vs : List Value) (s : InterpState)
  | done (s : InterpState)
  | err (e : RuntimeError) (s : InterpState)
  | panic
  | fuelOut

/- The evaluator, from interpreter.rs, as one fuel-indexed recursion so that
   closed runs compute inside the kernel.  Each case mirrors the
   corresponding `Interpreter` method. -/
def run : Nat → Job → InterpState → Res
  | 0, _, _ => .fuelOut
  | Nat.succ f, job, s =>
    match job with
    | .expr (.Literal l) =>
      match l with
      | .False => .val (.bool false) s
      | .True => .val (.bool true) s
      | .Null => .val .null s
      | .String str => .val (.string str) s
      | .Number n => .val (.number n) s
      | .Identifier n =>
        match s.environment.get n with
        | .ok v => .val v s
        | .error e => .err e s
    | .expr (.Unary op e) =>
      match run f (.expr e) s with
      | .val v s1 =>
        match op.token_type, v with
        | .Minus, .number n => .val (.number (-1 * n)) s1
        | .Bang, v2 => .val (.bool (! is_truthy v2)) s1
        | _, _ => .panic
      | .err er s1 => .err er s1
      | .panic => .panic
      | .fuelOut => .fuelOut
      | .done _ => .panic
      | .vals _ _ => .panic
    | .expr (.Binary l op r) =>
      match run f (.expr l) s with
      | .val v1 s1 =>
        match run f (.expr r) s1 with
        | .val v2 s2 =>
          match interpret_binary v1 op.token_type v2 with
          | .ok v => .val v s2
          | .error e => .err e s2
        | .err er s2 => .err er s2
        | .panic => .panic
        | .fuelOut => .fuelOut
        | .done _ => .panic
        | .vals _ _ => .panic
      | .err er s1 => .err er s1
      | .panic => .panic
      | .fuelOut => .fuelOut
      | .done _ => .panic
      | .vals _ _ => .panic
    | .expr (.Grouping e) => run f (.expr e) s
    | .expr (.Variable t) =>
      match s.environment.get t.lexeme with
      | .ok v => .val v s
      | .error e => .err e s
    | .expr (.Assign t e) =>
      match run f (.expr e) s with
      | .val v s1 =>
        match s1.environment.assign t.lexeme v with
        | (.ok _, env2) => .val v { s1 with environment := env2 }
        | (.error er, env2) => .err er { s1 with environment := env2 }
      | .err er s1 => .err er s1
      | .panic => .panic
      | .fuelOut => .fuelOut
      | .done _ => .panic
      | .vals _ _ => .panic
    | .expr (.Logical l op r) =>
      match run f (.expr l) s with
      | .val v1 s1 =>
        match op.token_type with
        | .Or => if is_truthy v1 then .val v1 s1 else run f (.expr r) s1
        | .And => if ! is_truthy v1 then .val v1 s1 else run f (.expr r) s1
        | _ => .err .LogicalOperatorError s1
      | .err er s1 => .err er s1
      | .panic => .panic
      | .fuelOut => .fuelOut
      | .done _ => .panic
      | .vals _ _ => .panic
    | .expr (.Call callee _ argExprs) =>
      match run f (.expr callee) s with
      | .val cv s1 =>
        match run f (.args argExprs []) s1 with
        | .vals vs s2 =>
          match cv with
          | .loxFunction nm body params ar => run f (.call nm body params ar vs) s2
          | _ => .err (.InvalidCall "Expected function call") s2
        | .err e s2 => .err e s2
        | .panic => .panic
        | .fuelOut => .fuelOut
        | .val _ _ => .panic
        | .done _ => .panic
      | .err er s1 => .err er s1
      | .panic => .panic
      | .fuelOut => .fuelOut
      | .done _ => .panic
      | .vals _ _ => .panic
    | .args [] acc => .vals acc s
    | .args (e :: es) acc =>
      match run f (.expr e) s with
      | .val v s1 => run f (.args es (acc ++ [v])) s1
      | .err er s1 => .err er s1
      | .panic => .panic
      | .fuelOut => .fuelOut
      | .done _ => .panic
      | .vals _ _ => .panic
    | .call _ body params _ vs =>
      match bindLoop vs params (.mk none []) with
      | none => .panic
      | some env =>
        match run f (.block body (some env)) s with
        | .done s1 => .val .null s1
        | .panic => .panic
        | .fuelOut => .fuelOut
        | .val _ _ => .panic
        | .vals _ _ => .panic
        | .err _ _ => .panic
    | .stmt (.Print e) =>
      match run f (.expr e) s with
      | .val v s1 => .done { s1 with output := s1.output ++ [v.display] }
      | .err _ _ => .panic
      | .panic => .panic
      | .fuelOut => .fuelOut
      | .done _ => .panic
      | .vals _ _ => .panic
    | .stmt (.Expression e) =>
      match run f (.expr e) s with
      | .val v s1 => .done { s1 with output := s1.output ++ [v.display] }
      | .err _ _ => .panic
      | .panic => .panic
      | .fuelOut => .fuelOut
      | .done _ => .panic
      | .vals _ _ => .panic
    | .stmt (.VarDeclaration n eOpt) =>
      match eOpt with
      | some ex =>
        match run f (.expr ex) s with
        | .val v s1 => .done { s1 with environment := s1.environment.define n.lexeme (some v) }
        | .err _ _ => .panic
        | .panic => .panic
        | .fuelOut => .fuelOut
        | .done _ => .panic
        | .vals _ _ => .panic
      | none => .done { s with environment := s.environment.define n.lexeme none }
    | .stmt (.Block b) => run f (.block b none) s
    | .stmt (.If c b1 b2) =>
      match run f (.expr c) s with
      | .val v s1 =>
        if is_truthy v then run f (.stmt b1) s1
        else
          match b2 with
          | some b => run f (.stmt b) s1
          | none => .done s1
      | .err _ s1 => .done s1
      | .panic => .panic
      | .fuelOut => .fuelOut
      | .done _ => .panic
      | .vals _ _ => .panic
    | .stmt (.While c body) =>
      match run f (.expr c) s with
      | .val v s1 =>
        if is_truthy v then
          match run f (.stmt body) s1 with
          | .done s2 => run f (.stmt (.While c body)) s2
          | .panic => .panic
          | .fuelOut => .fuelOut
          | .val _ _ => .panic
          | .vals _ _ => .panic
          | .err _ _ => .panic
        else .done s1
      | .err _ s1 => .done s1
      | .panic => .panic
      | .fuelOut => .fuelOut
      | .done _ => .panic
      | .vals _ _ => .panic
    | .stmt (.Function name params body) =>
      .done { s with environment := s.environment.define name.lexeme (some (.loxFunction name.lexeme body params params.length)) }
    | .stmts [] => .done s
    | .stmts (st :: rest) =>
      match run f (.stmt st) s with
      | .done s1 => run f (.stmts rest) s1
      | .panic => .panic
      | .fuelOut => .fuelOut
      | .val _ _ => .panic
      | .vals _ _ => .panic
      | .err _ _ => .panic
    | .block l envOpt =>
      let s1 : InterpState :=
        match envOpt with
        | some e => { s with environment := e }
        | none => { s with environment := .mk (some s.environment) [] }
      match run f (.stmts l) s1 with
      | .done s2 =>
        match s2.environment.enclosing with
        | some enc => .done { s2 with environment := enc }
        | none => .done s2
      | .panic => .panic
      | .fuelOut => .fuelOut
      | .val _ _ => .panic
      | .vals _ _ => .panic
      | .err _ _ => .panic

/- `Interpreter::interpret_expr`. -/
def interpret_expr (fuel : Nat) (e : Expr) (s : InterpState) : Res :=
  run fuel (.expr e) s

/- `Interpreter::execute`. -/
def execute (fuel : Nat) (st : Stmt) (s : InterpState) : Res :=
  run fuel (.stmt st) s

/- `Interpreter::interpret_block`. -/
def interpret_block (fuel : Nat) (l : List Stmt) (envOpt : Option Environment)
    (s : InterpState) : Res :=
  run fuel (.block l envOpt) s

/- `Interpreter::interpret`: reset to a fresh global frame and execute the
   statements in order. -/
def interpret (fuel : Nat) (statements : List Stmt) : Res :=
  run fuel (.stmts statements) ⟨.mk none [], []⟩

/- Scanner state, from scanner.rs.  The source bytes are modelled as a list
   of characters. -/
structure ScanState where
  source : List Char
  tokens : List Token
  start : Nat
  current : Nat
  line : Nat
  last_line_start : Nat
  col : Nat
  had_error : Bool

def nullChar : Char := Char.ofNat 0
def quoteChar : Char := Char.ofNat 34
def leftBraceChar : Char := Char.ofNat 123
def rightBraceChar : Char := Char.ofNat 125

/- `Scanner::is_at_end`. -/
def ScanState.is_at_end (s : ScanState) : Bool := decide (s.source.length ≤ s.current)

/- Indexing into the source; out of range yields the nul character exactly as
   `peek`/`peek_next` do. -/
def charAt (src : List Char) (i : Nat) : Char := src.getD i nullChar

/- `Scanner::peek`. -/
def ScanState.peek (s : ScanState) : Char :=
  if s.is_at_end then nullChar else charAt s.source s.current

/- `Scanner::peek_next`. -/
def ScanState.peek_next (s : ScanState) : Char :=
  if decide (s.source.length ≤ s.current + 1) then nullChar else charAt s.source (s.current + 1)

/- The lexeme `source[start..current]`. -/
def ScanState.lexemeText (s : ScanState) : String :=
  String.mk ((s.source.drop s.start).take (s.current - s.start))

/- `Scanner::add_token`. -/
def ScanState.add_token (s : ScanState) (tt : TokenType) (lit : Literal) : ScanState :=
  { s with tokens := s.tokens ++ [⟨tt, s.lexemeText, lit, s.line, s.current - s.last_line_start⟩] }

/- `Scanner::add_token_null`. -/
def ScanState.add_token_null (s : ScanState) (tt : TokenType) : ScanState :=
  s.add_token tt .Null

/- `Scanner::match_next`. -/
def ScanState.match_next (s : ScanState) (expected : Char) : Bool × ScanState :=
  if s.is_at_end then (false, s)
  else if charAt s.source s.current ≠ expected then (false, s)
  else (true, { s with current := s.current + 1 })

/- `Scanner::match_digit`. -/
def match_digit (c : Char) : Bool := decide ('0' ≤ c ∧ c ≤ '9')

/- `Scanner::match_alpha`. -/
def match_alpha (c : Char) : Bool :=
  decide (('a' ≤ c ∧ c ≤ 'z') ∨ ('A' ≤ c ∧ c ≤ 'Z') ∨ c = '_')

/- `Scanner::match_alphanumeric`. -/
def match_alphanumeric (c : Char) : Bool := match_alpha c || match_digit c

/- The keyword table built in `Scanner::default`. -/
def keywordLookup (t : String) : Option TokenType :=
  if t = "and" then some .And
  else if t = "class" then some .Class
  else if t = "else" then some .Else
  else if t = "false" then some .False
  else if t = "for" then some .For
  else if t = "fun" then some .Fun
  else if t = "if" then some .If
  else if t = "nil" then some .Nil
  else if t = "or" then some .Or
  else if t = "print" then some .Print
  else if t = "return" then some .Return
  else if t = "super" then some .Super
  else if t = "this" then some .This
  else if t = "true" then some .True
  else if t = "var" then some .Var
  else if t = "while" then some .While
  else none

/- The line-comment loop `while self.peek() != newline`: it does not test for
   end of input, so it can fail to terminate (`none` = fuel exhausted). -/
def lineCommentLoop : Nat → ScanState → Option ScanState
  | 0, _ => none
  | f + 1, s =>
    if s.peek ≠ '\n' then lineCommentLoop f { s with current := s.current + 1 }
    else some s

/- The block-comment loop, with the source's exit condition
   `peek == star or peek_next == slash` and no end-of-input test. -/
def blockCommentLoop : Nat → ScanState → Option ScanState
  | 0, _ => none
  | f + 1, s =>
    if s.peek ≠ '*' ∧ s.peek_next ≠ '/' then
      let s1 :=
        if s.peek = '\n' then { s with line := s.line + 1, col := 0, last_line_start := s.current }
        else s
      blockCommentLoop f { s1 with current := s1.current + 1 }
    else some s

/- The string-literal loop of `Scanner::string`. -/
def stringLoop : Nat → ScanState → Option ScanState
  | 0, _ => none
  | f + 1, s =>
    if s.peek ≠ quoteChar ∧ ¬ s.is_at_end then
      let s1 := if s.peek = '\n' then { s with line := s.line + 1, col := 0 } else s
      stringLoop f { s1 with current := s1.current + 1 }
    else some s

/- `Scanner::string`. -/
def stringScan (f : Nat) (s0 : ScanState) : Option ScanState :=
  match stringLoop f s0 with
  | none => none
  | some s =>
    if s.is_at_end then some { s with had_error := true }
    else
      let s1 : ScanState := { s with current := s.current + 1 }
      let value := String.mk ((s1.source.drop (s1.start + 1)).take (s1.current - 1 - (s1.start + 1)))
      some (s1.add_token .String (.String value))

/- The digit-consuming loop of `Scanner::number`. -/
def digitsLoop : Nat → ScanState → Option ScanState
  | 0, _ => none
  | f + 1, s =>
    if match_digit s.peek then digitsLoop f { s with current := s.current + 1 }
    else some s

def digitVal (c : Char) : Nat := c.toNat - 48

def digitsToNat : List Char → Nat → Nat
  | [], acc => acc
  | c :: cs, acc => digitsToNat cs (acc * 10 + digitVal c)

/- The `f64` parse of a numeric lexeme, modelled as the exact rational. -/
def parseNumber (cs : List Char) : Rat :=
  let intPart := cs.takeWhile (fun c => c ≠ '.')
  let rest := cs.dropWhile (fun c => c ≠ '.')
  match rest with
  | [] => (digitsToNat intPart 0 : Rat)
  | _ :: frac => (digitsToNat intPart 0 : Rat) + (digitsToNat frac 0 : Rat) / ((10 : Rat) ^ frac.length)

/- `Scanner::number`. -/
def numberScan (f : Nat) (s0 : ScanState) : Option ScanState :=
  match digitsLoop f s0 with
  | none => none
  | some s1 =>
    if s1.peek = '.' ∧ match_digit s1.peek_next then
      match digitsLoop f { s1 with current := s1.current + 1 } with
      | none => none
      | some s2 =>
        some (s2.add_token .Number (.Number (parseNumber ((s2.source.drop s2.start).take (s2.current - s2.start)))))
    else
      some (s1.add_token .Number (.Number (parseNumber ((s1.source.drop s1.start).take (s1.current - s1.start)))))

/- `Scanner::identifier`: consume the alphanumeric run, then classify
   through the keyword table. -/
def identifierLoop : Nat → ScanState → Option ScanState
  | 0, _ => none
  | f + 1, s =>
    if match_alphanumeric s.peek then identifierLoop f { s with current := s.current + 1 }
    else some s

def finishIdentifier (s : ScanState) : ScanState :=
  let text := s.lexemeText
  match keywordLookup text with
  | some tt => s.add_token_null tt
  | none => s.add_token .Identifier (.Identifier text)

/- `Scanner::scan_token`: advance one character and dispatch on it, exactly
   mirroring the source's match, including the dedicated arm for the
   character o that emits an Or token when an r follows and otherwise emits
   nothing. -/
def scan_token (f : Nat) (s0 : ScanState) : Option ScanState :=
  let c := charAt s0.source s0.current
  let s : ScanState := { s0 with current := s0.current + 1 }
  if c = '(' then some (s.add_token_null .LeftParen)
  else if c = ')' then some (s.add_token_null .RightParen)
  else if c = leftBraceChar then some (s.add_token_null .LeftBrace)
  else if c = rightBraceChar then some (s.add_token_null .RightBrace)
  else if c = ',' then some (s.add_token_null .Comma)
  else if c = '.' then some (s.add_token_null .Dot)
  else if c = '-' then some (s.add_token_null .Minus)
  else if c = '+' then some (s.add_token_null .Plus)
  else if c = ';' then some (s.add_token_null .Semicolon)
  else if c = '*' then some (s.add_token_null .Star)
  else if c = '!' then
    let r := s.match_next '='
    some (if r.1 then r.2.add_token_null .BangEqual else r.2.add_token_null .Bang)
  else if c = '=' then
    let r := s.match_next '='
    some (if r.1 then r.2.add_token_null .EqualEqual else r.2.add_token_null .Equal)
  else if c = '<' then
    let r := s.match_next '='
    some (if r.1 then r.2.add_token_null .LessEqual else r.2.add_token_null .Less)
  else if c = '>' then
    let r := s.match_next '='
    some (if r.1 then r.2.add_token_null .GreaterEqual else r.2.add_token_null .Greater)
  else if c = '/' then
    if s.peek = '/' then lineCommentLoop f { s with current := s.current + 1 }
    else if s.peek = '*' then
      match blockCommentLoop f { s with current := s.current + 1 } with
      | none => none
      | some s2 => some { s2 with current := s2.current + 2 }
    else some (s.add_token_null .Slash)
  else if c = ' ' then some s
  else if c = '\r' then some s
  else if c = '\t' then some s
  else if c = '\n' then some { s with line := s.line + 1, col := 0, last_line_start := s.current }
  else if c = quoteChar then stringScan f s
  else if c = 'o' then
    let r := s.match_next 'r'
    some (if r.1 then r.2.add_token_null .Or else r.2)
  else if match_digit c then numberScan f s
  else if match_alpha c then
    match identifierLoop f s with
    | none => none
    | some s1 => some (finishIdentifier s1)
  else some { s with had_error := true }

/- The scanning loop of `Scanner::scan_tokens`. -/
def scanLoop : Nat → ScanState → Option ScanState
  | 0, _ => none
  | f + 1, s =>
    if s.is_at_end then some s
    else
      match scan_token f { s with start := s.current } with
      | none => none
      | some s1 => scanLoop f s1

/- The initial scanner state for a source text (`Scanner::default` plus
   `set_source`). -/
def initScan (src : String) : ScanState :=
  ⟨src.data, [], 0, 0, 1, 0, 0, false⟩

/- `Scanner::scan_tokens`: run the loop, then append the end-of-stream
   token.  `none` means the scan did not finish within the given fuel. -/
def scan_tokens (fuel : Nat) (src : String) : Option (List Token) :=
  match scanLoop fuel (initScan src) with
  | none => none
  | some s => some (s.add_token_null .EOF).tokens

/- Parse errors, from parser.rs. -/
inductive ParseError where
  | ParseError (expected : TokenType) (found : TokenType) (message : String) (line : Nat) (col : Nat)
  | ExpectedExpression (expected : List TokenType) (found : TokenType) (line : Nat) (col : Nat)
deriving DecidableEq, Repr

/- Parser cursor helpers, from parser.rs.  The token list is indexed with a
   default end-of-stream token; the source's equivalent accesses are guarded
   by `is_at_end` on well-formed (EOF-terminated) token sequences. -/
def eofTok : Token := ⟨.EOF, "", .Null, 0, 0⟩

def peekT (toks : List Token) (i : Nat) : Token := toks.getD i eofTok

def isAtEndT (toks : List Token) (i : Nat) : Bool := decide ((peekT toks i).token_type = .EOF)

def checkT (toks : List Token) (i : Nat) (tt : TokenType) : Bool :=
  if isAtEndT toks i then false else decide ((peekT toks i).token_type = tt)

def advanceT (toks : List Token) (i : Nat) : Nat :=
  if isAtEndT toks i then i else i + 1

def previousT (toks : List Token) (i : Nat) : Token := toks.getD (i - 1) eofTok

/- `Parser::match_`: advance past the first matching kind. -/
def matchT (toks : List Token) (types : List TokenType) (i : Nat) : Bool × Nat :=
  if types.any (fun t => checkT toks i t) then (true, advanceT toks i) else (false, i)

/- `Parser::consume_`. -/
def consumeT (toks : List Token) (tt : TokenType) (msg : String) (i : Nat) :
    Except ParseError Token × Nat :=
  if checkT toks i tt then (.ok (peekT toks i), advanceT toks i)
  else (.error (.ParseError tt (peekT toks i).token_type msg (peekT toks i).line (peekT toks i).col), i)

/- `Parser::make_error`. -/
def makeErrorT (toks : List Token) (expected : TokenType) (msg : String) (i : Nat) : ParseError :=
  .ParseError expected (peekT toks i).token_type msg (previousT toks i).line (previousT toks i).col

/- The pending work of the recursive-descent parser: one constructor per
   parsing function of parser.rs, plus one per source-level loop (carrying
   the accumulator that the loop builds). -/
inductive PJob where
  | declaration_or_stmt
  | fun_declaration (kind : String)
  | fun_params (kind : String) (acc : List Token)
  | statement
  | while_statement
  | for_statement
  | for_rest (initializer : Option Stmt)
  | if_statement
  | block_statement
  | blockJ
  | block_loop (acc : List Stmt)
  | print_statement
  | expression_statement
  | var_declaration
  | expression
  | assignment
  | orE
  | or_loop (e : Expr)
  | andE
  | and_loop (e : Expr)
  | equality
  | comparison
  | term
  | term_loop (e : Expr)
  | factor
  | factor_loop (e : Expr)
  | unary
  | callE
  | call_loop (e : Expr)
  | finish_call (callee : Expr)
  | fc_args (callee : Expr) (acc : List Expr)
  | primary

/- Results produced by the parsing functions. -/
inductive POut where
  | expr (e : Expr)
  | stmt (s : Stmt)
  | stmts (l : List Stmt)
  | params (l : List Token)

/- Shared tail of `Parser::var_declaration`. -/
def varDeclFinish (toks : List Token) (name : Token) (init : Option Expr) (j : Nat) :
    Option (Except ParseError POut × Nat) :=
  match consumeT toks .Semicolon "Expected \x27;\x27 after variable declaration" j with
  | (.error pe, j1) => some (.error pe, j1)
  | (.ok _, j1) => some (.ok (.stmt (.VarDeclaration name init)), j1)

/- Shared tail of `Parser::finish_call`. -/
def finishCallFinish (toks : List Token) (callee : Expr) (args : List Expr) (j : Nat) :
    Option (Except ParseError POut × Nat) :=
  match consumeT toks .RightParen "Expect \x27)\x27 after arguments." j with
  | (.error pe, j1) => some (.error pe, j1)
  | (.ok paren, j1) => some (.ok (.expr (.Call callee paren args)), j1)

/- The recursive-descent parser of parser.rs as one fuel-indexed recursion.
   A result pairs the parsing function's `Result` with the cursor position
   it left behind (the state of `self.current`); `none` is exhausted fuel. -/
def parseRun : Nat → List Token → PJob → Nat → Option (Except ParseError POut × Nat)
  | 0, _, _, _ => none
  | Nat.succ f, toks, job, i =>
    match job with
    | .declaration_or_stmt =>
      let r1 := matchT toks [.Fun] i
      if r1.1 then parseRun f toks (.fun_declaration "function") r1.2
      else
        let r2 := matchT toks [.Var] r1.2
        if r2.1 then parseRun f toks .var_declaration r2.2
        else parseRun f toks .statement r2.2
    | .fun_declaration kind =>
      match consumeT toks .Identifier (s!"Expecting {kind} name.") i with
      | (.error pe, j) => some (.error pe, j)
      | (.ok name, j) =>
        match consumeT toks .LeftParen (s!"Expect \x27(\x27 after {kind} name.") j with
        | (.error pe, j1) => some (.error pe, j1)
        | (.ok _, j1) =>
          let pres : Option (Except ParseError (List Token) × Nat) :=
            if ¬ checkT toks j1 .RightParen then
              match parseRun f toks (.fun_params kind []) j1 with
              | none => none
              | some (.ok (.params ps), j2) => some (.ok ps, j2)
              | some (.error pe, j2) => some (.error pe, j2)
              | some (.ok _, _) => none
            else some (.ok [], j1)
          match pres with
          | none => none
          | some (.error pe, j2) => some (.error pe, j2)
          | some (.ok ps, j2) =>
            match consumeT toks .RightParen "Expect \x27)\x27 after parameters." j2 with
            | (.error pe, j3) => some (.error pe, j3)
            | (.ok _, j3) =>
              match consumeT toks .LeftBrace (s!"Expect \x27\x7b\x27 before {kind} body.") j3 with
              | (.error pe, j4) => some (.error pe, j4)
              | (.ok _, j4) =>
                match parseRun f toks .blockJ j4 with
                | none => none
                | some (.error pe, j5) => some (.error pe, j5)
                | some (.ok (.stmts body), j5) => some (.ok (.stmt (.Function name ps body)), j5)
                | some (.ok _, _) => none
    | .fun_params kind acc =>
      if acc.length ≥ 255 then
        some (.error (makeErrorT toks .RightParen "Too many arguments (>=255)." i), i)
      else
        match consumeT toks .Identifier "Expect parameter name." i with
        | (.error pe, j) => some (.error pe, j)
        | (.ok p, j) =>
          let r := matchT toks [.Comma] j
          if r.1 then parseRun f toks (.fun_params kind (acc ++ [p])) r.2
          else some (.ok (.params (acc ++ [p])), r.2)
    | .statement =>
      let r1 := matchT toks [.Print] i
      if r1.1 then parseRun f toks .print_statement r1.2 else
      let r2 := matchT toks [.While] i
      if r2.1 then parseRun f toks .while_statement r2.2 else
      let r3 := matchT toks [.For] i
      if r3.1 then parseRun f toks .for_statement r3.2 else
      let r4 := matchT toks [.LeftBrace] i
      if r4.1 then parseRun f toks .block_statement r4.2 else
      let r5 := matchT toks [.If] i
      if r5.1 then parseRun f toks .if_statement r5.2 else
      parseRun f toks .expression_statement i
    | .while_statement =>
      match consumeT toks .LeftParen "Expect \x27(\x27 after \x27while\x27." i with
      | (.error pe, j) => some (.error pe, j)
      | (.ok _, j) =>
        match parseRun f toks .expression j with
        | none => none
        | some (.error pe, j1) => some (.error pe, j1)
        | some (.ok (.expr cond), j1) =>
          match consumeT toks .RightParen "Expect \x27)\x27 after condition." j1 with
          | (.error pe, j2) => some (.error pe, j2)
          | (.ok _, j2) =>
            match parseRun f toks .statement j2 with
            | none => none
            | some (.error pe, j3) => some (.error pe, j3)
            | some (.ok (.stmt body), j3) => some (.ok (.stmt (.While cond body)), j3)
            | some (.ok _, _) => none
        | some (.ok _, _) => none
    | .for_statement =>
      match consumeT toks .LeftParen "Expect \x27(\x27 after \x27for\x27." i with
      | (.error pe, j) => some (.error pe, j)
      | (.ok _, j) =>
        let r1 := matchT toks [.Semicolon] j
        if r1.1 then parseRun f toks (.for_rest none) r1.2
        else
          let r2 := matchT toks [.Var] r1.2
          if r2.1 then
            match parseRun f toks .var_declaration r2.2 with
            | none => none
            | some (.ok (.stmt st), j2) => parseRun f toks (.for_rest (some st)) j2
            | some (.error _, j2) => parseRun f toks (.for_rest none) j2
            | some (.ok _, _) => none
          else
            match parseRun f toks .expression_statement r1.2 with
            | none => none
            | some (.ok (.stmt st), j2) => parseRun f toks (.for_rest (some st)) j2
            | some (.error _, j2) => parseRun f toks (.for_rest none) j2
            | some (.ok _, _) => none
    | .for_rest initializer =>
      let cres : Option ((Option Expr) × Nat) :=
        if ¬ checkT toks i .Semicolon then
          match parseRun f toks .expression i with
          | none => none
          | some (.ok (.expr e), j) => some (some e, j)
          | some (.error _, j) => some (none, j)
          | some (.ok _, _) => none
        else some (none, i)
      match cres with
      | none => none
      | some (cond0, j) =>
        match consumeT toks .Semicolon "Expect \x27;\x27 after loop condition." j with
        | (.error pe, j1) => some (.error pe, j1)
        | (.ok _, j1) =>
          let ires : Option ((Option Expr) × Nat) :=
            if ¬ checkT toks j1 .RightParen then
              match parseRun f toks .expression j1 with
              | none => none
              | some (.ok (.expr e), j2) => some (some e, j2)
              | some (.error _, j2) => some (none, j2)
              | some (.ok _, _) => none
            else some (none, j1)
          match ires with
          | none => none
          | some (increment, j2) =>
            match consumeT toks .RightParen "Expect \x27)\x27 after for clauses." j2 with
            | (.error pe, j3) => some (.error pe, j3)
            | (.ok _, j3) =>
              match parseRun f toks .statement j3 with
              | none => none
              | some (.error pe, j4) => some (.error pe, j4)
              | some (.ok (.stmt body0), j4) =>
                let body1 : Stmt :=
                  match increment with
                  | some inc => .Block [body0, .Expression inc]
                  | none => body0
                let cond1 : Expr :=
                  match cond0 with
                  | some c => c
                  | none => .Literal .True
                let body2 : Stmt := .While cond1 body1
                let body3 : Stmt :=
                  match initializer with
                  | some ini => .Block [ini, body2]
                  | none => body2
                some (.ok (.stmt body3), j4)
              | some (.ok _, _) => none
    | .if_statement =>
      match consumeT toks .LeftParen "Expect \x27(\x27 after \x27if\x27." i with
      | (.error pe, j) => some (.error pe, j)
      | (.ok _, j) =>
        match parseRun f toks .expression j with
        | none => none
        | some (.error pe, j1) => some (.error pe, j1)
        | some (.ok (.expr cond), j1) =>
          match parseRun f toks .statement j1 with
          | none => none
          | some (.error pe, j2) => some (.error pe, j2)
          | some (.ok (.stmt thenB), j2) =>
            let r := matchT toks [.Else] j2
            if r.1 then
              match parseRun f toks .statement r.2 with
              | none => none
              | some (.error pe, j3) => some (.error pe, j3)
              | some (.ok (.stmt elseB), j3) =>
                some (.ok (.stmt (.If cond thenB (some elseB))), j3)
              | some (.ok _, _) => none
            else some (.ok (.stmt (.If cond thenB none)), r.2)
          | some (.ok _, _) => none
        | some (.ok _, _) => none
    | .block_statement =>
      match parseRun f toks .blockJ i with
      | none => none
      | some (.error pe, j) => some (.error pe, j)
      | some (.ok (.stmts l), j) => some (.ok (.stmt (.Block l)), j)
      | some (.ok _, _) => none
    | .blockJ => parseRun f toks (.block_loop []) i
    | .block_loop acc =>
      if ¬ checkT toks i .RightBrace ∧ ¬ isAtEndT toks i then
        match parseRun f toks .declaration_or_stmt i with
        | none => none
        | some (.error pe, j) => some (.error pe, j)
        | some (.ok (.stmt st), j) => parseRun f toks (.block_loop (acc ++ [st])) j
        | some (.ok _, _) => none
      else
        match consumeT toks .RightBrace "Expect \x27\x7d\x27 after block." i with
        | (.error pe, j) => some (.error pe, j)
        | (.ok _, j) => some (.ok (.stmts acc), j)
    | .print_statement =>
      match parseRun f toks .expression i with
      | none => none
      | some (.error pe, j) => some (.error pe, j)
      | some (.ok (.expr e), j) =>
        match consumeT toks .Semicolon "Expect \x27;\x27 after value." j with
        | (.error pe, j1) => some (.error pe, j1)
        | (.ok _, j1) => some (.ok (.stmt (.Print e)), j1)
      | some (.ok _, _) => none
    | .expression_statement =>
      match parseRun f toks .expression i with
      | none => none
      | some (.error pe, j) => some (.error pe, j)
      | some (.ok (.expr e), j) =>
        match consumeT toks .Semicolon "Expect \x27;\x27 after expression." j with
        | (.error pe, j1) => some (.error pe, j1)
        | (.ok _, j1) => some (.ok (.stmt (.Expression e)), j1)
      | some (.ok _, _) => none
    | .var_declaration =>
      match consumeT toks .Identifier "Expected variable name" i with
      | (.error pe, j) => some (.error pe, j)
      | (.ok name, j) =>
        let r := matchT toks [.Equal] j
        if r.1 then
          match parseRun f toks .expression r.2 with
          | none => none
          | some (.ok (.expr e), j1) => varDeclFinish toks name (some e) j1
          | some (.error _, j1) => varDeclFinish toks name none j1
          | some (.ok _, _) => none
        else varDeclFinish toks name none r.2
    | .expression => parseRun f toks .assignment i
    | .assignment =>
      match parseRun f toks .orE i with
      | none => none
      | some (.error pe, j) => some (.error pe, j)
      | some (.ok (.expr e), j) =>
        let r := matchT toks [.Equal] j
        if r.1 then
          match parseRun f toks .assignment r.2 with
          | none => none
          | some (.error pe, j1) => some (.error pe, j1)
          | some (.ok (.expr right), j1) =>
            match e with
            | .Variable l =>
              if l.token_type = .Identifier then some (.ok (.expr (.Assign l right)), j1)
              else
                some (.error (.ParseError .Var .Nil "Invalid assignment target."
                  (previousT toks j1).line (toks.getD (j1 - 3) eofTok).col), j1)
            | _ =>
              some (.error (.ParseError .Var .Nil "Invalid assignment target."
                (previousT toks j1).line (toks.getD (j1 - 3) eofTok).col), j1)
          | some (.ok _, _) => none
        else some (.ok (.expr e), r.2)
      | some (.ok _, _) => none
    | .orE =>
      match parseRun f toks .andE i with
      | none => none
      | some (.error pe, j) => some (.error pe, j)
      | some (.ok (.expr e), j) => parseRun f toks (.or_loop e) j
      | some (.ok _, _) => none
    | .or_loop e =>
      let r := matchT toks [.Or] i
      if r.1 then
        let op := previousT toks r.2
        match parseRun f toks .andE r.2 with
        | none => none
        | some (.error pe, j) => some (.error pe, j)
        | some (.ok (.expr right), j) => parseRun f toks (.or_loop (.Logical e op right)) j
        | some (.ok _, _) => none
      else some (.ok (.expr e), r.2)
    | .andE =>
      match parseRun f toks .equality i with
      | none => none
      | some (.error pe, j) => some (.error pe, j)
      | some (.ok (.expr e), j) => parseRun f toks (.and_loop e) j
      | some (.ok _, _) => none
    | .and_loop e =>
      let r := matchT toks [.And] i
      if r.1 then
        let op := previousT toks r.2
        match parseRun f toks .equality r.2 with
        | none => none
        | some (.error pe, j) => some (.error pe, j)
        | some (.ok (.expr right), j) => parseRun f toks (.and_loop (.Logical e op right)) j
        | some (.ok _, _) => none
      else some (.ok (.expr e), r.2)
    | .equality =>
      match parseRun f toks .comparison i with
      | none => none
      | some (.error pe, j) => some (.error pe, j)
      | some (.ok (.expr e), j) =>
        let r := matchT toks [.BangEqual, .EqualEqual] j
        if r.1 then
          let op := previousT toks r.2
          match parseRun f toks .comparison r.2 with
          | none => none
          | some (.error pe, j1) => some (.error pe, j1)
          | some (.ok (.expr right), j1) => some (.ok (.expr (.Binary e op right)), j1)
          | some (.ok _, _) => none
        else some (.ok (.expr e), r.2)
      | some (.ok _, _) => none
    | .comparison =>
      match parseRun f toks .term i with
      | none => none
      | some (.error pe, j) => some (.error pe, j)
      | some (.ok (.expr e), j) =>
        let r := matchT toks [.Greater, .GreaterEqual, .Less, .LessEqual] j
        if r.1 then
          let op := previousT toks r.2
          match parseRun f toks .term r.2 with
          | none => none
          | some (.error pe, j1) => some (.error pe, j1)
          | some (.ok (.expr right), j1) => some (.ok (.expr (.Binary e op right)), j1)
          | some (.ok _, _) => none
        else some (.ok (.expr e), r.2)
      | some (.ok _, _) => none
    | .term =>
      match parseRun f toks .factor i with
      | none => none
      | some (.error pe, j) => some (.error pe, j)
      | some (.ok (.expr e), j) => parseRun f toks (.term_loop e) j
      | some (.ok _, _) => none
    | .term_loop e =>
      let r := matchT toks [.Minus, .Plus] i
      if r.1 then
        let op := previousT toks r.2
        match parseRun f toks .factor r.2 with
        | none => none
        | some (.error pe, j) => some (.error pe, j)
        | some (.ok (.expr right), j) => parseRun f toks (.term_loop (.Binary e op right)) j
        | some (.ok _, _) => none
      else some (.ok (.expr e), r.2)
    | .factor =>
      match parseRun f toks .unary i with
      | none => none
      | some (.error pe, j) => some (.error pe, j)
      | some (.ok (.expr e), j) => parseRun f toks (.factor_loop e) j
      | some (.ok _, _) => none
    | .factor_loop e =>
      let r := matchT toks [.Star, .Slash] i
      if r.1 then
        let op := previousT toks r.2
        match parseRun f toks .unary r.2 with
        | none => none
        | some (.error pe, j) => some (.error pe, j)
        | some (.ok (.expr right), j) => parseRun f toks (.factor_loop (.Binary e op right)) j
        | some (.ok _, _) => none
      else some (.ok (.expr e), r.2)
    | .unary =>
      let r := matchT toks [.Bang, .Minus] i
      if r.1 then
        let op := previousT toks r.2
        match parseRun f toks .unary r.2 with
        | none => none
        | some (.error pe, j) => some (.error pe, j)
        | some (.ok (.expr right), j) => some (.ok (.expr (.Unary op right)), j)
        | some (.ok _, _) => none
      else parseRun f toks .callE i
    | .callE =>
      match parseRun f toks .primary i with
      | none => none
      | some (.error pe, j) => some (.error pe, j)
      | some (.ok (.expr e), j) => parseRun f toks (.call_loop e) j
      | some (.ok _, _) => none
    | .call_loop e =>
      let r := matchT toks [.LeftParen] i
      if r.1 then
        match parseRun f toks (.finish_call e) r.2 with
        | none => none
        | some (.error pe, j) => some (.error pe, j)
        | some (.ok (.expr e2), j) => parseRun f toks (.call_loop e2) j
        | some (.ok _, _) => none
      else some (.ok (.expr e), r.2)
    | .finish_call callee =>
      if ¬ checkT toks i .RightParen then parseRun f toks (.fc_args callee []) i
      else finishCallFinish toks callee [] i
    | .fc_args callee acc =>
      if acc.length ≥ 255 then
        some (.error (.ParseError .Var .Nil "Too many arguments (>=255)."
          (previousT toks i).line (previousT toks i).col), i)
      else
        match parseRun f toks .expression i with
        | none => none
        | some (.error pe, j) => some (.error pe, j)
        | some (.ok (.expr e), j) =>
          let r := matchT toks [.Comma] j
          if r.1 then parseRun f toks (.fc_args callee (acc ++ [e])) r.2
          else finishCallFinish toks callee (acc ++ [e]) r.2
        | some (.ok _, _) => none
    | .primary =>
      let r1 := matchT toks [.False] i
      if r1.1 then some (.ok (.expr (.Literal .False)), r1.2) else
      let r2 := matchT toks [.True] i
      if r2.1 then some (.ok (.expr (.Literal .True)), r2.2) else
      let r3 := matchT toks [.Nil] i
      if r3.1 then some (.ok (.expr (.Literal .Null)), r3.2) else
      let r4 := matchT toks [.Number, .String] i
      if r4.1 then some (.ok (.expr (.Literal (previousT toks r4.2).literal)), r4.2) else
      let r5 := matchT toks [.Identifier] i
      if r5.1 then some (.ok (.expr (.Variable (previousT toks r5.2))), r5.2) else
      let r6 := matchT toks [.LeftParen] i
      if r6.1 then
        match parseRun f toks .expression r6.2 with
        | none => none
        | some (.error pe, j) => some (.error pe, j)
        | some (.ok (.expr e), j) =>
          match consumeT toks .RightParen "Expect \x27)\x27 after expression." j with
          | (.error pe, j1) => some (.error pe, j1)
          | (.ok _, j1) => some (.ok (.expr (.Grouping e)), j1)
        | some (.ok _, _) => none
      else
        some (.error (.ExpectedExpression [.False, .True, .Nil, .Number, .String, .LeftParen]
          (peekT toks i).token_type (peekT toks i).line (peekT toks i).col), i)

/- Modelled from the spec: the for statement desugars into a block holding
   the optional initializer followed by a while loop whose condition
   defaults to literal true when omitted and whose body has the increment
   appended as a trailing expression statement when present; omitted
   initializer or increment leave out the corresponding wrapping. -/
def forDesugar (initializer : Option Stmt) (condition : Option Expr) (increment : Option Expr)
    (body : Stmt) : Stmt :=
  let loopBody : Stmt :=
    match increment with
    | some inc => .Block [body, .Expression inc]
    | none => body
  let loop : Stmt := .While (condition.getD (.Literal .True)) loopBody
  match initializer with
  | some ini => .Block [ini, loop]
  | none => loop

/- Modelled from the spec: parse the condition, increment and body clauses
   exactly as the parser does, then combine them with `forDesugar`. -/
def forRestSpec : Nat → List Token → Option Stmt → Nat → Option (Except ParseError POut × Nat)
  | 0, _, _, _ => none
  | Nat.succ f, toks, initializer, i =>
    let cres : Option ((Option Expr) × Nat) :=
      if ¬ checkT toks i .Semicolon then
        match parseRun f toks .expression i with
        | none => none
        | some (.ok (.expr e), j) => some (some e, j)
        | some (.error _, j) => some (none, j)
        | some (.ok _, _) => none
      else some (none, i)
    match cres with
    | none => none
    | some (cond0, j) =>
      match consumeT toks .Semicolon "Expect \x27;\x27 after loop condition." j with
      | (.error pe, j1) => some (.error pe, j1)
      | (.ok _, j1) =>
        let ires : Option ((Option Expr) × Nat) :=
          if ¬ checkT toks j1 .RightParen then
            match parseRun f toks .expression j1 with
            | none => none
            | some (.ok (.expr e), j2) => some (some e, j2)
            | some (.error _, j2) => some (none, j2)
            | some (.ok _, _) => none
          else some (none, j1)
        match ires with
        | none => none
        | some (increment, j2) =>
          match consumeT toks .RightParen "Expect \x27)\x27 after for clauses." j2 with
          | (.error pe, j3) => some (.error pe, j3)
          | (.ok _, j3) =>
            match parseRun f toks .statement j3 with
            | none => none
            | some (.error pe, j4) => some (.error pe, j4)
            | some (.ok (.stmt body0), j4) =>
              some (.ok (.stmt (forDesugar initializer cond0 increment body0)), j4)
            | some (.ok _, _) => none

/- Modelled from the spec: `for` parsing as clause parsing followed by the
   spec's desugaring. -/
def forStatementSpec : Nat → List Token → Nat → Option (Except ParseError POut × Nat)
  | 0, _, _ => none
  | Nat.succ f, toks, i =>
    match consumeT toks .LeftParen "Expect \x27(\x27 after \x27for\x27." i with
    | (.error pe, j) => some (.error pe, j)
    | (.ok _, j) =>
      let r1 := matchT toks [.Semicolon] j
      if r1.1 then forRestSpec f toks none r1.2
      else
        let r2 := matchT toks [.Var] r1.2
        if r2.1 then
          match parseRun f toks .var_declaration r2.2 with
          | none => none
          | some (.ok (.stmt st), j2) => forRestSpec f toks (some st) j2
          | some (.error _, j2) => forRestSpec f toks none j2
          | some (.ok _, _) => none
        else
          match parseRun f toks .expression_statement r1.2 with
          | none => none
          | some (.ok (.stmt st), j2) => forRestSpec f toks (some st) j2
          | some (.error _, j2) => forRestSpec f toks none j2
          | some (.ok _, _) => none

/- Modelled from the spec: whether any frame in the chain holds the name. -/
def chainHas : Environment → String → Bool
  | .mk none vals, n =>
    match valuesLookup vals n with
    | some _ => true
    | none => false
  | .mk (some e) vals, n =>
    match valuesLookup vals n with
    | some _ => true
    | none => chainHas e n

/- Modelled from the spec: the first binding found for the name when
   searching the frame chain outward. -/
def firstBinding : Environment → String → Option (Option Value)
  | .mk none vals, n =>
    match valuesLookup vals n with
    | some w => some w
    | none => none
  | .mk (some e) vals, n =>
    match valuesLookup vals n with
    | some w => some w
    | none => firstBinding e n

/- The names bound in one frame, and the list of those per frame along the
   chain (the shape of an environment). -/
def frameKeys (vals : List (String × Option Value)) : List String := vals.map Prod.fst

def envShape : Environment → List (List String)
  | .mk none vals => [frameKeys vals]
  | .mk (some e) vals => frameKeys vals :: envShape e

/- An expression that contains no call node. -/
def Expr.callFree : Expr → Bool
  | .Literal _ => true
  | .Unary _ e => e.callFree
  | .Binary l _ r => l.callFree && r.callFree
  | .Call _ _ _ => false
  | .Grouping e => e.callFree
  | .Variable _ => true
  | .Assign _ e => e.callFree
  | .Logical l _ r => l.callFree && r.callFree

/- Statements whose execution performs no function call (a function
   declaration only defines the callable, so it qualifies). -/
mutual

inductive CallFreeStmt : Stmt → Prop where
  | varNone : ∀ t, CallFreeStmt (.VarDeclaration t none)
  | varSome : ∀ t e, e.callFree = true → CallFreeStmt (.VarDeclaration t (some e))
  | print : ∀ e, e.callFree = true → CallFreeStmt (.Print e)
  | expression : ∀ e, e.callFree = true → CallFreeStmt (.Expression e)
  | block : ∀ l, CallFreeStmts l → CallFreeStmt (.Block l)
  | ifNone : ∀ c b1, c.callFree = true → CallFreeStmt b1 → CallFreeStmt (.If c b1 none)
  | ifSome : ∀ c b1 b2, c.callFree = true → CallFreeStmt b1 → CallFreeStmt b2 →
      CallFreeStmt (.If c b1 (some b2))
  | whileS : ∀ c b, c.callFree = true → CallFreeStmt b → CallFreeStmt (.While c b)
  | funDecl : ∀ n ps body, CallFreeStmt (.Function n ps body)

inductive CallFreeStmts : List Stmt → Prop where
  | nil : CallFreeStmts []
  | cons : ∀ st l, CallFreeStmt st → CallFreeStmts l → CallFreeStmts (st :: l)

end

/- Concrete fixtures used by the example runs below. -/
def idTok (n : String) : Token := ⟨.Identifier, n, .Identifier n, 1, 0⟩

def parenTok : Token := ⟨.RightParen, ")", .Null, 1, 0⟩

def plusTok : Token := ⟨.Plus, "+", .Null, 1, 0⟩

def callFExpr : Expr := .Call (.Variable (idTok "f")) parenTok []

/- `fun f() {} f();` -/
def progCall : List Stmt := [.Function (idTok "f") [] [], .Expression callFExpr]

/- `fun f() {}` alone. -/
def progDeclOnly : List Stmt := [.Function (idTok "f") [] []]

/- `var a = "hi"; fun f() { print a; } f();` -/
def progGlobalRead : List Stmt :=
  [ .VarDeclaration (idTok "a") (some (.Literal (.String "hi"))),
    .Function (idTok "f") [] [.Print (.Variable (idTok "a"))],
    .Expression callFExpr ]

/- `var a = "hi"; print a;` -/
def progGlobalReadDirect : List Stmt :=
  [ .VarDeclaration (idTok "a") (some (.Literal (.String "hi"))),
    .Print (.Variable (idTok "a")) ]

/- The failing condition `1 + "a"`. -/
def badCond : Expr := .Binary (.Literal (.Number 1)) plusTok (.Literal (.String "a"))

/- `if (1 + "a") print "t"; else print "e";` -/
def ifBadCond : Stmt :=
  .If badCond (.Print (.Literal (.String "t"))) (some (.Print (.Literal (.String "e"))))

/- The same statement with condition literal false. -/
def ifFalseCond : Stmt :=
  .If (.Literal .False) (.Print (.Literal (.String "t"))) (some (.Print (.Literal (.String "e"))))

def emptyState : InterpState := ⟨.mk none [], []⟩

/- A two-frame environment exercising every case of C3. -/
def envFix : Environment :=
  .mk (some (.mk none [("b", none), ("c", some (.string "v"))])) [("a", some (.string "w"))]

/- A one-frame environment and a call-free block demonstrating C1: the block
shadows nothing, defines a local, and assigns to the outer variable. -/
def demoState : InterpState := ⟨.mk none [("x", some (.string "one"))], []⟩

def demoBlockStmts : List Stmt :=
  [.VarDeclaration (idTok "y") (some (.Literal (.String "two"))),
   .Expression (.Assign (idTok "x") (.Literal (.String "three")))]

def Value.isNumber : Value → Bool
  | .number _ => true
  | _ => false

def Value.isString : Value → Bool
  | .string _ => true
  | _ => false

/- Token sequences produced by the scanner for the parser examples. -/
def eqeqToks : List Token := (scan_tokens 64 "a == b == c;").getD []

def lessToks : List Token := (scan_tokens 64 "a < b < c;").getD []

def minusToks : List Token := (scan_tokens 64 "a - b - c;").getD []

def starToks : List Token := (scan_tokens 64 "a * b * c;").getD []

def forToks : List Token := (scan_tokens 256 "for (var i = 0; i < 3; i = i + 1) print i;").getD []

def forNoClauseToks : List Token := (scan_tokens 64 "for (;;) print i;").getD []

/- Induction along the enclosing chain of an environment. -/
theorem Environment.myInduction (P : Environment → Prop)
    (h : ∀ enc vals, (∀ e, enc = some e → P e) → P (.mk enc vals)) : ∀ env, P env
  | .mk none vals => h none vals (by intro e he; cases he)
  | .mk (some e) vals =>
    h (some e) vals (by intro e2 he; cases he; exact Environment.myInduction P h e)

theorem get_not_found : ∀ (env : Environment) (n : String),
    chainHas env n = false → env.get n = .error .VariableNotFound := by
  intro env
  induction env using Environment.myInduction with
  | h enc vals ih =>
    intro n hc
    cases enc with
    | none =>
      simp only [chainHas] at hc
      simp only [Environment.get]
      cases hl : valuesLookup vals n with
      | some w => rw [hl] at hc; simp at hc
      | none => rfl
    | some e =>
      simp only [chainHas] at hc
      simp only [Environment.get]
      cases hl : valuesLookup vals n with
      | some w => rw [hl] at hc; simp at hc
      | none => rw [hl] at hc; simp only at hc; exact ih e rfl n hc

theorem get_not_initialized : ∀ (env : Environment) (n : String),
    firstBinding env n = some none → env.get n = .error .VariableNotInitialized := by
  intro env
  induction env using Environment.myInduction with
  | h enc vals ih =>
    intro n hb
    cases enc with
    | none =>
      simp only [firstBinding] at hb
      simp only [Environment.get]
      cases hl : valuesLookup vals n with
      | some w => rw [hl] at hb; simp at hb; rw [hb]
      | none => rw [hl] at hb; simp at hb
    | some e =>
      simp only [firstBinding] at hb
      simp only [Environment.get]
      cases hl : valuesLookup vals n with
      | some w => rw [hl] at hb; simp at hb; rw [hb]
      | none => rw [hl] at hb; simp only at hb; exact ih e rfl n hb

theorem get_found : ∀ (env : Environment) (n : String) (v : Value),
    firstBinding env n = some (some v) → env.get n = .ok v := by
  intro env
  induction env using Environment.myInduction with
  | h enc vals ih =>
    intro n v hb
    cases enc with
    | none =>
      simp only [firstBinding] at hb
      simp only [Environment.get]
      cases hl : valuesLookup vals n with
      | some w => rw [hl] at hb; simp at hb; rw [hb]
      | none => rw [hl] at hb; simp at hb
    | some e =>
      simp only [firstBinding] at hb
      simp only [Environment.get]
      cases hl : valuesLookup vals n with
      | some w => rw [hl] at hb; simp at hb; rw [hb]
      | none => rw [hl] at hb; simp only at hb; exact ih e rfl n v hb

theorem assign_not_found : ∀ (env : Environment) (n : String) (v : Value),
    chainHas env n = false → env.assign n v = (.error .VariableNotFound, env) := by
  intro env
  induction env using Environment.myInduction with
  | h enc vals ih =>
    intro n v hc
    cases enc with
    | none =>
      simp only [chainHas] at hc
      simp only [Environment.assign]
      cases hl : valuesLookup vals n with
      | some w => rw [hl] at hc; simp at hc
      | none => rfl
    | some e =>
      simp only [chainHas] at hc
      simp only [Environment.assign]
      cases hl : valuesLookup vals n with
      | some w => rw [hl] at hc; simp at hc
      | none =>
        rw [hl] at hc
        simp only at hc
        rw [ih e rfl n v hc]

/-- C3: `get` on a name absent from the entire frame chain fails with
variable-not-found; `get` on a name whose first binding along the chain is
uninitialized fails with variable-not-initialized; `get` on a name whose
first binding holds a value returns it; and `assign` on a name absent from
the entire chain fails with variable-not-found while leaving every frame
unchanged. -/
theorem environment_get_assign_spec :
    (∀ (env : Environment) (n : String), chainHas env n = false →
        env.get n = .error .VariableNotFound) ∧
    (∀ (env : Environment) (n : String), firstBinding env n = some none →
        env.get n = .error .VariableNotInitialized) ∧
    (∀ (env : Environment) (n : String) (v : Value), firstBinding env n = some (some v) →
        env.get n = .ok v) ∧
    (∀ (env : Environment) (n : String) (v : Value), chainHas env n = false →
        env.assign n v = (.error .VariableNotFound, env)) :=
  ⟨get_not_found, get_not_initialized, get_found, assign_not_found⟩

/-- Witness for C3 at a concrete two-frame environment. -/
theorem environment_get_assign_spec_witness :
    (chainHas envFix "zz" = false ∧ envFix.get "zz" = .error .VariableNotFound) ∧
    (firstBinding envFix "b" = some none ∧ envFix.get "b" = .error .VariableNotInitialized) ∧
    (firstBinding envFix "c" = some (some (.string "v")) ∧ envFix.get "c" = .ok (.string "v")) ∧
    (chainHas envFix "zz" = false ∧
      envFix.assign "zz" (.string "x") = (.error .VariableNotFound, envFix)) :=
  ⟨⟨rfl, environment_get_assign_spec.1 envFix "zz" rfl⟩,
   ⟨rfl, environment_get_assign_spec.2.1 envFix "b" rfl⟩,
   ⟨rfl, environment_get_assign_spec.2.2.1 envFix "c" (.string "v") rfl⟩,
   ⟨rfl, environment_get_assign_spec.2.2.2 envFix "zz" (.string "x") rfl⟩⟩

theorem bindLoop_extra_arg : ∀ (vs : List Value) (ps : List Token) (env : Environment),
    ps.length < vs.length → bindLoop vs ps env = none := by
  intro vs
  induction vs with
  | nil => intro ps env h; simp at h
  | cons a rest ih =>
    intro ps env h
    cases ps with
    | nil => rfl
    | cons p ps2 =>
      exact ih ps2 _ (by simp at h; omega)

/-- C9: calling a user-defined function with more evaluated arguments than
parameters panics (out-of-bounds parameter index) instead of returning a
typed runtime error. -/
theorem extra_argument_panics :
    ∀ (f : Nat) (nm : String) (body : List Stmt) (params : List Token) (ar : Nat)
      (vs : List Value) (s : InterpState),
      params.length < vs.length →
      run (f + 1) (.call nm body params ar vs) s = .panic := by
  intro f nm body params ar vs s h
  simp only [run, bindLoop_extra_arg vs params _ h]

/-- Witness for C9: a zero-parameter function applied to one argument. -/
theorem extra_argument_panics_witness :
    ([] : List Token).length < ([Value.null] : List Value).length ∧
    run 1 (.call "f" [] [] 0 [Value.null]) emptyState = .panic :=
  ⟨by decide, extra_argument_panics 0 "f" [] [] 0 [Value.null] emptyState (by decide)⟩

theorem valuesLookup_set_other (vals : List (String × Option Value)) (k n : String)
    (v : Option Value) (h : k ≠ n) : valuesLookup (valuesSet vals k v) n = valuesLookup vals n := by
  induction vals with
  | nil => simp [valuesSet, valuesLookup, h]
  | cons p rest ih =>
    obtain ⟨k0, w⟩ := p
    by_cases hk : k0 = k
    · subst hk
      simp [valuesSet, valuesLookup, h]
    · by_cases hn : k0 = n <;> simp [valuesSet, valuesLookup, hk, hn, ih, Ne.symm h]

theorem define_get_other (env : Environment) (k : String) (v : Option Value) (n : String)
    (h : k ≠ n) : (env.define k v).get n = env.get n := by
  cases env with
  | mk enc vals =>
    cases enc <;>
      simp only [Environment.define, Environment.get, valuesLookup_set_other vals k n v h]

theorem bindLoop_get_unbound :
    ∀ (vs : List Value) (ps : List Token) (env0 env : Environment) (n : String),
      bindLoop vs ps env0 = some env → n ∉ ps.map Token.lexeme → env.get n = env0.get n := by
  intro vs
  induction vs with
  | nil =>
    intro ps env0 env n hb _
    simp [bindLoop] at hb
    rw [hb]
  | cons a rest ih =>
    intro ps env0 env n hb hn
    cases ps with
    | nil => simp [bindLoop] at hb
    | cons p ps2 =>
      simp only [bindLoop] at hb
      simp only [List.map_cons, List.mem_cons, not_or] at hn
      rw [ih ps2 _ env n hb hn.2]
      exact define_get_other env0 p.lexeme (some a) n (fun hx => hn.1 hx.symm)

/-- C2 (amended): while a user-defined function body executes, variable reads
resolve against only the call's fresh frame, which has no enclosing link; a
read of any name that is not one of the bound parameters fails with
variable-not-found, regardless of what the global frame defines. -/
theorem call_frame_reads_miss_globals :
    ∀ (vs : List Value) (params : List Token) (env : Environment) (t : Token)
      (f : Nat) (s : InterpState),
      bindLoop vs params (.mk none []) = some env →
      t.lexeme ∉ params.map Token.lexeme →
      run (f + 1) (.expr (.Variable t)) { s with environment := env } =
        .err .VariableNotFound { s with environment := env } := by
  intro vs params env t f s hb hn
  have hg : env.get t.lexeme = .error .VariableNotFound := by
    rw [bindLoop_get_unbound vs params _ env t.lexeme hb hn]
    rfl
  simp only [run, hg]

/-- Witness for C2's amended theorem at the empty call frame. -/
theorem call_frame_reads_miss_globals_witness :
    bindLoop [] [] (.mk none []) = some (.mk none []) ∧
    (idTok "a").lexeme ∉ ([] : List Token).map Token.lexeme ∧
    run 3 (.expr (.Variable (idTok "a"))) { emptyState with environment := .mk none [] } =
      .err .VariableNotFound { emptyState with environment := .mk none [] } :=
  ⟨rfl, by simp,
    call_frame_reads_miss_globals [] [] (.mk none []) (idTok "a") 2 emptyState rfl (by simp)⟩

/-- C2 counterexample: with `var a = "hi"; fun f() { print a; } f();` the
body's read of the global `a` is not resolved — the run panics on
variable-not-found — although the same read outside a function prints the
value. -/
theorem function_body_global_read_panics_cex :
    interpret 50 progGlobalRead = .panic ∧
    interpret 50 progGlobalReadDirect =
      .done ⟨.mk none [("a", some (.string "hi"))], ["hi"]⟩ :=
  ⟨rfl, rfl⟩

/-- C1 counterexample: after `fun f() {} f();` the interpreter's current
environment is the call's frame (no `f` present), not the environment that
was current before the call. -/
theorem call_leaves_call_frame_current_cex :
    interpret 50 progCall = .done ⟨.mk none [], ["Null"]⟩ ∧
    interpret 50 progDeclOnly = .done ⟨.mk none [("f", some (.loxFunction "f" [] [] 0))], []⟩ ∧
    Environment.mk none [] ≠ .mk none [("f", some (.loxFunction "f" [] [] 0))] :=
  ⟨rfl, rfl, by simp⟩

/-- C7 (amended): when evaluating the condition of an `if` fails, the whole
statement is skipped — neither branch runs and the run is not aborted; when a
`while` condition fails, the loop stops without escalating the error. -/
theorem condition_error_skips_if_and_stops_while :
    ∀ (f : Nat) (c : Expr) (er : RuntimeError) (s s1 : InterpState) (b1 : Stmt)
      (b2 : Option Stmt),
      run f (.expr c) s = .err er s1 →
      run (f + 1) (.stmt (.If c b1 b2)) s = .done s1 ∧
      run (f + 1) (.stmt (.While c b1)) s = .done s1 := by
  intro f c er s s1 b1 b2 h
  constructor <;> simp only [run, h]

/-- Witness for C7's amended theorem at the failing condition `1 + "a"`. -/
theorem condition_error_skips_if_and_stops_while_witness :
    run 5 (.expr badCond) emptyState = .err .BinaryOperationError emptyState ∧
    run 6 (.stmt (.If badCond (.Print (.Literal (.String "t")))
      (some (.Print (.Literal (.String "e")))))) emptyState = .done emptyState ∧
    run 6 (.stmt (.While badCond (.Print (.Literal (.String "t"))))) emptyState =
      .done emptyState := by
  refine ⟨rfl, ?_, ?_⟩
  · exact (condition_error_skips_if_and_stops_while 5 badCond .BinaryOperationError
      emptyState emptyState (.Print (.Literal (.String "t")))
      (some (.Print (.Literal (.String "e")))) rfl).1
  · exact (condition_error_skips_if_and_stops_while 5 badCond .BinaryOperationError
      emptyState emptyState (.Print (.Literal (.String "t"))) none rfl).2

/-- C7 counterexample: on `if (1 + "a") print "t"; else print "e";` the else
branch does not execute (no output), which differs from treating the failed
condition as false (which would print "e"). -/
theorem if_error_skips_else_cex :
    run 9 (.stmt ifBadCond) emptyState = .done emptyState ∧
    run 9 (.stmt ifFalseCond) emptyState = .done ⟨.mk none [], ["e"]⟩ ∧
    Res.done emptyState ≠ .done ⟨.mk none [], ["e"]⟩ :=
  ⟨rfl, rfl, by simp [emptyState]⟩

/-- C4: on two numbers the arithmetic operators yield the numeric result and
the comparison operators the boolean comparison result; `+` on two strings
concatenates; every other combination of operand types, for every binary
operator, fails with the binary-operation error — in particular `1 + "a"`. -/
theorem interpret_binary_spec :
    (∀ n1 n2 : Rat,
      interpret_binary (.number n1) .Plus (.number n2) = .ok (.number (n1 + n2)) ∧
      interpret_binary (.number n1) .Minus (.number n2) = .ok (.number (n1 - n2)) ∧
      interpret_binary (.number n1) .Star (.number n2) = .ok (.number (n1 * n2)) ∧
      interpret_binary (.number n1) .Slash (.number n2) = .ok (.number (n1 / n2)) ∧
      interpret_binary (.number n1) .Greater (.number n2) = .ok (.bool (decide (n1 > n2))) ∧
      interpret_binary (.number n1) .GreaterEqual (.number n2) = .ok (.bool (decide (n1 ≥ n2))) ∧
      interpret_binary (.number n1) .Less (.number n2) = .ok (.bool (decide (n1 < n2))) ∧
      interpret_binary (.number n1) .LessEqual (.number n2) = .ok (.bool (decide (n1 ≤ n2))) ∧
      interpret_binary (.number n1) .BangEqual (.number n2) = .ok (.bool (decide (n1 ≠ n2))) ∧
      interpret_binary (.number n1) .EqualEqual (.number n2) = .ok (.bool (decide (n1 = n2)))) ∧
    (∀ s1 s2 : String,
      interpret_binary (.string s1) .Plus (.string s2) = .ok (.string (s1 ++ s2))) ∧
    (∀ (v1 v2 : Value) (op : TokenType),
      (op = .Plus ∨ op = .Minus ∨ op = .Star ∨ op = .Slash ∨ op = .Greater ∨
       op = .GreaterEqual ∨ op = .Less ∨ op = .LessEqual ∨ op = .BangEqual ∨
       op = .EqualEqual) →
      ¬ (v1.isNumber = true ∧ v2.isNumber = true) →
      ¬ (v1.isString = true ∧ op = .Plus ∧ v2.isString = true) →
      interpret_binary v1 op v2 = .error .BinaryOperationError) ∧
    interpret_binary (.number 1) .Plus (.string "a") = .error .BinaryOperationError := by
  refine ⟨?_, ?_, ?_, rfl⟩
  · intro n1 n2
    exact ⟨rfl, rfl, rfl, rfl, rfl, rfl, rfl, rfl, rfl, rfl⟩
  · intro s1 s2
    simp [interpret_binary, String.join]
  · intro v1 v2 op hop h1 h2
    rcases hop with rfl | rfl | rfl | rfl | rfl | rfl | rfl | rfl | rfl | rfl <;>
      cases v1 <;> cases v2 <;>
        simp_all [interpret_binary, Value.isNumber, Value.isString]

/-- Witness for C4 at the spec's own examples: `1 + 2 = 3`, `"a" + "b" = "ab"`
and failing `1 + "a"`. -/
theorem interpret_binary_spec_witness :
    interpret_binary (.number 1) .Plus (.number 2) = .ok (.number 3) ∧
    interpret_binary (.string "a") .Plus (.string "b") = .ok (.string "ab") ∧
    interpret_binary (.number 1) .Plus (.string "a") = .error .BinaryOperationError := by
  refine ⟨?_, ?_, ?_⟩
  · exact (interpret_binary_spec.1 1 2).1.trans (by norm_num)
  · have h := interpret_binary_spec.2.1 "a" "b"
    simpa using h
  · exact interpret_binary_spec.2.2.1 (.number 1) (.string "a") .Plus (Or.inl rfl)
      (by simp [Value.isNumber]) (by simp [Value.isString])

/-- C10: on the scanned tokens of `a == b == c;` the equality level consumes
exactly one `==`, returning the node for `a == b` with the cursor on the
second `==`, and parsing the statement then reports a parse error expecting
`;` but finding `==` at the second operator (line 1, column 9); the
comparison level likewise consumes exactly one operator on `a < b < c;`,
returning the node for `a < b` with the cursor on the second `<` and a
parse error there (line 1, column 7); the additive and multiplicative
levels instead loop and associate to the left. -/
theorem equality_comparison_nonassociative :
    parseRun 99 eqeqToks .equality 0 =
      some (.ok (.expr (.Binary (.Variable ⟨.Identifier, "a", .Identifier "a", 1, 1⟩)
        ⟨.EqualEqual, "==", .Null, 1, 4⟩
        (.Variable ⟨.Identifier, "b", .Identifier "b", 1, 6⟩))), 3) ∧
    peekT eqeqToks 3 = ⟨.EqualEqual, "==", .Null, 1, 9⟩ ∧
    parseRun 99 eqeqToks .expression_statement 0 =
      some (.error (.ParseError .Semicolon .EqualEqual "Expect \x27;\x27 after expression." 1 9),
        3) ∧
    parseRun 99 lessToks .comparison 0 =
      some (.ok (.expr (.Binary (.Variable ⟨.Identifier, "a", .Identifier "a", 1, 1⟩)
        ⟨.Less, "<", .Null, 1, 3⟩
        (.Variable ⟨.Identifier, "b", .Identifier "b", 1, 5⟩))), 3) ∧
    peekT lessToks 3 = ⟨.Less, "<", .Null, 1, 7⟩ ∧
    parseRun 99 lessToks .expression_statement 0 =
      some (.error (.ParseError .Semicolon .Less "Expect \x27;\x27 after expression." 1 7), 3) ∧
    parseRun 99 minusToks .term 0 =
      some (.ok (.expr (.Binary
        (.Binary (.Variable ⟨.Identifier, "a", .Identifier "a", 1, 1⟩) ⟨.Minus, "-", .Null, 1, 3⟩
          (.Variable ⟨.Identifier, "b", .Identifier "b", 1, 5⟩))
        ⟨.Minus, "-", .Null, 1, 7⟩ (.Variable ⟨.Identifier, "c", .Identifier "c", 1, 9⟩))), 5) ∧
    parseRun 99 starToks .factor 0 =
      some (.ok (.expr (.Binary
        (.Binary (.Variable ⟨.Identifier, "a", .Identifier "a", 1, 1⟩) ⟨.Star, "*", .Null, 1, 3⟩
          (.Variable ⟨.Identifier, "b", .Identifier "b", 1, 5⟩))
        ⟨.Star, "*", .Null, 1, 7⟩ (.Variable ⟨.Identifier, "c", .Identifier "c", 1, 9⟩))), 5) :=
  ⟨rfl, rfl, rfl, rfl, rfl, rfl, rfl, rfl⟩

/-- C6: the lexer does not emit one identifier token for a maximal
alphanumeric run starting with the letter o: `one` scans to a single
identifier token with lexeme `ne` (the leading `o` is silently dropped), and
`orange` scans to an `or` keyword token followed by an identifier `ange`,
although neither run is in the keyword table. -/
theorem identifier_o_prefix_mangled :
    scan_tokens 32 "one" =
      some [⟨.Identifier, "ne", .Identifier "ne", 1, 3⟩, ⟨.EOF, "ne", .Null, 1, 3⟩] ∧
    scan_tokens 32 "orange" =
      some [⟨.Or, "or", .Null, 1, 2⟩, ⟨.Identifier, "ange", .Identifier "ange", 1, 6⟩,
        ⟨.EOF, "ange", .Null, 1, 6⟩] ∧
    keywordLookup "one" = none ∧ keywordLookup "orange" = none :=
  ⟨rfl, rfl, rfl, rfl⟩

theorem lineCommentLoop_step (f : Nat) (s : ScanState) (h : s.peek ≠ '\n') :
    lineCommentLoop (f + 1) s = lineCommentLoop f { s with current := s.current + 1 } := by
  rw [show lineCommentLoop (f + 1) s =
    (if s.peek ≠ '\n' then lineCommentLoop f { s with current := s.current + 1 } else some s)
    from rfl]
  rw [if_pos h]

theorem lineCommentLoop_past_end :
    ∀ (f : Nat) (s : ScanState), s.source.length ≤ s.current → lineCommentLoop f s = none := by
  intro f
  induction f with
  | zero => intro s h; rfl
  | succ f ih =>
    intro s h
    have hp : s.peek = nullChar := by
      simp [ScanState.peek, ScanState.is_at_end, h]
    rw [lineCommentLoop_step f s (by rw [hp]; decide)]
    exact ih _ (by simp; omega)

theorem blockCommentLoop_step (f : Nat) (s : ScanState)
    (h1 : s.peek ≠ '*') (h2 : s.peek_next ≠ '/') (h3 : ¬ s.peek = '\n') :
    blockCommentLoop (f + 1) s = blockCommentLoop f { s with current := s.current + 1 } := by
  rw [show blockCommentLoop (f + 1) s =
    (if s.peek ≠ '*' ∧ s.peek_next ≠ '/' then
      blockCommentLoop f
        { (if s.peek = '\n' then
            { s with line := s.line + 1, col := 0, last_line_start := s.current } else s) with
          current := (if s.peek = '\n' then
            { s with line := s.line + 1, col := 0, last_line_start := s.current } else s).current + 1 }
     else some s) from rfl]
  rw [if_pos ⟨h1, h2⟩, if_neg h3]

theorem blockCommentLoop_past_end :
    ∀ (f : Nat) (s : ScanState), s.source.length ≤ s.current → blockCommentLoop f s = none := by
  intro f
  induction f with
  | zero => intro s h; rfl
  | succ f ih =>
    intro s h
    have hp : s.peek = nullChar := by
      simp [ScanState.peek, ScanState.is_at_end, h]
    have hpn : s.peek_next = nullChar := by
      simp only [ScanState.peek_next, charAt]
      rw [if_pos]
      simp
      omega
    rw [blockCommentLoop_step f s (by rw [hp]; decide) (by rw [hpn]; decide) (by rw [hp]; decide)]
    exact ih _ (by simp; omega)

/-- C5: the scanner does not terminate on every input: a line comment with no
trailing newline (`//x`) and an unterminated block comment (`/*`) make the
comment-skipping loops run forever (no fuel suffices), so no EOF-terminated
token sequence is produced for them. -/
theorem scanner_comment_divergence :
    (∀ fuel, scan_tokens fuel "//x" = none) ∧ (∀ fuel, scan_tokens fuel "/*" = none) := by
  constructor
  · intro fuel
    cases fuel with
    | zero => rfl
    | succ f =>
      have h2 : lineCommentLoop f ⟨"//x".data, [], 0, 2, 1, 0, 0, false⟩ = none := by
        cases f with
        | zero => rfl
        | succ f2 =>
          rw [lineCommentLoop_step f2 ⟨"//x".data, [], 0, 2, 1, 0, 0, false⟩ (by decide)]
          exact lineCommentLoop_past_end f2 _ (by decide)
      show (match (match lineCommentLoop f ⟨"//x".data, [], 0, 2, 1, 0, 0, false⟩ with
          | none => none
          | some s1 => scanLoop f s1) with
        | none => none
        | some s => some (s.add_token_null .EOF).tokens) = none
      rw [h2]
  · intro fuel
    cases fuel with
    | zero => rfl
    | succ f =>
      have h2 : blockCommentLoop f ⟨"/*".data, [], 0, 2, 1, 0, 0, false⟩ = none :=
        blockCommentLoop_past_end f ⟨"/*".data, [], 0, 2, 1, 0, 0, false⟩ (by decide)
      show (match (match (match blockCommentLoop f ⟨"/*".data, [], 0, 2, 1, 0, 0, false⟩ with
            | none => none
            | some s2 => some { s2 with current := s2.current + 2 }) with
          | none => none
          | some s1 => scanLoop f s1) with
        | none => none
        | some s => some (s.add_token_null .EOF).tokens) = none
      rw [h2]

theorem for_rest_eq (f : Nat) (toks : List Token) (init : Option Stmt) (i : Nat) :
    parseRun f toks (.for_rest init) i = forRestSpec f toks init i := by
  cases f with
  | zero => rfl
  | succ f =>
    simp only [parseRun, forRestSpec]
    repeat' split
    all_goals rfl

theorem for_statement_eq (f : Nat) (toks : List Token) (i : Nat) :
    parseRun f toks .for_statement i = forStatementSpec f toks i := by
  cases f with
  | zero => rfl
  | succ f =>
    simp only [parseRun, forStatementSpec]
    repeat' split
    all_goals first | rfl | apply for_rest_eq

/-- C8: `for` parsing equals parsing the clauses and then applying the spec's
desugaring (`forDesugar`: optional initializer wrapped in a block around a
while loop whose condition defaults to literal true and whose body gets the
increment as a trailing expression statement); concretely,
`for (var i = 0; i < 3; i = i + 1) print i;` parses to the desugared block
and `for (;;) print i;` to a bare while-true loop with no extra wrapping. -/
theorem for_statement_desugars :
    (∀ (fuel : Nat) (toks : List Token) (i : Nat),
      parseRun fuel toks .for_statement i = forStatementSpec fuel toks i) ∧
    parseRun 99 forToks .statement 0 =
      some (.ok (.stmt (.Block
        [ .VarDeclaration ⟨.Identifier, "i", .Identifier "i", 1, 10⟩
            (some (.Literal (.Number 0))),
          .While (.Binary (.Variable ⟨.Identifier, "i", .Identifier "i", 1, 17⟩)
              ⟨.Less, "<", .Null, 1, 19⟩ (.Literal (.Number 3)))
            (.Block
              [ .Print (.Variable ⟨.Identifier, "i", .Identifier "i", 1, 41⟩),
                .Expression (.Assign ⟨.Identifier, "i", .Identifier "i", 1, 24⟩
                  (.Binary (.Variable ⟨.Identifier, "i", .Identifier "i", 1, 28⟩)
                    ⟨.Plus, "+", .Null, 1, 30⟩ (.Literal (.Number 1)))) ]) ])), 20) ∧
    parseRun 99 forNoClauseToks .statement 0 =
      some (.ok (.stmt (.While (.Literal .True)
        (.Print (.Variable ⟨.Identifier, "i", .Identifier "i", 1, 16⟩)))), 8) :=
  ⟨for_statement_eq, rfl, rfl⟩

theorem valuesSet_keys_of_mem :
    ∀ (vals : List (String × Option Value)) (n : String) (w v : Option Value),
      valuesLookup vals n = some w → frameKeys (valuesSet vals n v) = frameKeys vals := by
  intro vals
  induction vals with
  | nil => intro n w v h; simp [valuesLookup] at h
  | cons p rest ih =>
    intro n w v h
    obtain ⟨k0, w0⟩ := p
    by_cases hk : k0 = n
    · subst hk
      simp [valuesSet, valuesLookup, frameKeys]
    · simp only [valuesLookup, if_neg hk] at h
      simp [valuesSet, hk, frameKeys] at ih ⊢
      exact ih n w v h

theorem assign_shape : ∀ (env : Environment) (n : String) (v : Value),
    envShape (env.assign n v).2 = envShape env := by
  intro env
  induction env using Environment.myInduction with
  | h enc vals ih =>
    intro n v
    cases enc with
    | none =>
      simp only [Environment.assign]
      cases hl : valuesLookup vals n with
      | some w => simp [envShape, valuesSet_keys_of_mem vals n w (some v) hl]
      | none => rfl
    | some e =>
      simp only [Environment.assign]
      cases hl : valuesLookup vals n with
      | some w => simp [envShape, valuesSet_keys_of_mem vals n w (some v) hl]
      | none => simp [envShape, ih e rfl n v]

theorem define_shape_tail : ∀ (env : Environment) (n : String) (v : Option Value),
    (envShape (env.define n v)).tail = (envShape env).tail := by
  intro env n v
  cases env with
  | mk enc vals => cases enc <;> simp [Environment.define, envShape]

theorem envShape_ne_nil : ∀ env : Environment, envShape env ≠ [] := by
  intro env
  cases env with
  | mk enc vals => cases enc <;> simp [envShape]

theorem pop_frame : ∀ (env : Environment), (envShape env).tail ≠ [] →
    ∃ e, env.enclosing = some e ∧ envShape e = (envShape env).tail := by
  intro env h
  cases env with
  | mk enc vals =>
    cases enc with
    | none => simp [envShape] at h
    | some e => exact ⟨e, rfl, by simp [envShape, Environment.enclosing]⟩

set_option maxHeartbeats 4000000 in
theorem shape_invariant : ∀ f : Nat,
    (∀ (e : Expr) (s : InterpState), e.callFree = true →
      (∀ v s1, run f (.expr e) s = .val v s1 → envShape s1.environment = envShape s.environment) ∧
      (∀ er s1, run f (.expr e) s = .err er s1 → envShape s1.environment = envShape s.environment)) ∧
    (∀ (st : Stmt) (s : InterpState), CallFreeStmt st →
      ∀ s1, run f (.stmt st) s = .done s1 →
        (envShape s1.environment).tail = (envShape s.environment).tail) ∧
    (∀ (l : List Stmt) (s : InterpState), CallFreeStmts l →
      ∀ s1, run f (.stmts l) s = .done s1 →
        (envShape s1.environment).tail = (envShape s.environment).tail) ∧
    (∀ (l : List Stmt) (s : InterpState), CallFreeStmts l →
      ∀ s1, run f (.block l none) s = .done s1 →
        envShape s1.environment = envShape s.environment) := by
  intro f
  induction f with
  | zero =>
    refine ⟨?_, ?_, ?_, ?_⟩
    · intro e s _
      exact ⟨fun v s1 h => by simp [run] at h, fun er s1 h => by simp [run] at h⟩
    · intro st s _ s1 h; simp [run] at h
    · intro l s _ s1 h; simp [run] at h
    · intro l s _ s1 h; simp [run] at h
  | succ f ih =>
    obtain ⟨ihe, ihst, ihl, ihb⟩ := ih
    refine ⟨?_, ?_, ?_, ?_⟩
    · -- expressions preserve the full shape
      intro e s hcf
      cases e with
      | Literal l =>
        refine ⟨?_, ?_⟩ <;> intro a s1 h <;> cases l <;> simp only [run] at h <;>
          first
            | (cases h <;> rfl)
            | (split at h <;> cases h <;> rfl)
      | Variable t =>
        refine ⟨?_, ?_⟩ <;> intro a s1 h <;> simp only [run] at h <;>
          split at h <;> cases h <;> rfl
      | Grouping e1 =>
        simp only [Expr.callFree] at hcf
        refine ⟨?_, ?_⟩ <;> intro a s1 h <;> simp only [run] at h
        · exact (ihe e1 s hcf).1 _ _ h
        · exact (ihe e1 s hcf).2 _ _ h
      | Call c p args => exact absurd hcf (by simp [Expr.callFree])
      | Unary op e1 =>
        simp only [Expr.callFree] at hcf
        refine ⟨?_, ?_⟩ <;> intro a s1 h <;> simp only [run] at h <;>
          (cases he : run f (.expr e1) s <;> rw [he] at h <;> try dsimp only at h)
      
        case val v sv =>
          split at h <;> cases h
          · exact (ihe e1 s hcf).1 _ _ he
          · exact (ihe e1 s hcf).1 _ _ he
        case err er sv =>
          cases h
        case val v sv =>
          split at h <;> cases h
        case err er sv =>
          cases h
          exact (ihe e1 s hcf).2 _ _ he
        all_goals cases h
      | Binary l op r =>
        simp only [Expr.callFree, Bool.and_eq_true] at hcf
        refine ⟨?_, ?_⟩ <;> intro a s1 h <;> simp only [run] at h <;>
          (cases hl : run f (.expr l) s <;> rw [hl] at h <;> try dsimp only at h)
        case val v1 sl =>
          cases hr : run f (.expr r) sl <;> rw [hr] at h <;> try dsimp only at h
          case val v2 sr =>
            split at h <;> cases h <;>
              exact ((ihe r sl hcf.2).1 _ _ hr).trans ((ihe l s hcf.1).1 _ _ hl)
          all_goals cases h
        case err er sl => cases h
        case val v1 sl =>
          cases hr : run f (.expr r) sl <;> rw [hr] at h <;> try dsimp only at h
          case val v2 sr =>
            split at h <;> cases h <;>
              exact ((ihe r sl hcf.2).1 _ _ hr).trans ((ihe l s hcf.1).1 _ _ hl)
          case err er sr =>
            cases h
            exact ((ihe r sl hcf.2).2 _ _ hr).trans ((ihe l s hcf.1).1 _ _ hl)
          all_goals cases h
        case err er sl =>
          cases h
          exact (ihe l s hcf.1).2 _ _ hl
        all_goals cases h
      | Assign t e1 =>
        simp only [Expr.callFree] at hcf
        refine ⟨?_, ?_⟩ <;> intro a s1 h <;> simp only [run] at h <;>
          (cases he : run f (.expr e1) s <;> rw [he] at h <;> try dsimp only at h)
        case val v sv =>
          split at h
          · rename_i u env2 heq
            have h2 := assign_shape sv.environment t.lexeme v
            rw [heq] at h2
            cases h
            exact h2.trans ((ihe e1 s hcf).1 _ _ he)
          · cases h
        case err er sv =>
          cases h
        case val v sv =>
          split at h
          · cases h
          · rename_i er2 env2 heq
            have h2 := assign_shape sv.environment t.lexeme v
            rw [heq] at h2
            cases h
            exact h2.trans ((ihe e1 s hcf).1 _ _ he)
        case err er sv =>
          cases h
          exact (ihe e1 s hcf).2 _ _ he
        all_goals cases h
      | Logical l op r =>
        simp only [Expr.callFree, Bool.and_eq_true] at hcf
        refine ⟨?_, ?_⟩ <;> intro a s1 h <;> simp only [run] at h <;>
          (cases hl : run f (.expr l) s <;> rw [hl] at h <;> try dsimp only at h)
        case val v1 sl =>
          split at h
          · split at h
            · cases h; exact (ihe l s hcf.1).1 _ _ hl
            · exact ((ihe r sl hcf.2).1 _ _ h).trans ((ihe l s hcf.1).1 _ _ hl)
          · split at h
            · cases h; exact (ihe l s hcf.1).1 _ _ hl
            · exact ((ihe r sl hcf.2).1 _ _ h).trans ((ihe l s hcf.1).1 _ _ hl)
          · cases h
        case err er sl => cases h
        case val v1 sl =>
          split at h
          · split at h
            · cases h
            · exact ((ihe r sl hcf.2).2 _ _ h).trans ((ihe l s hcf.1).1 _ _ hl)
          · split at h
            · cases h
            · exact ((ihe r sl hcf.2).2 _ _ h).trans ((ihe l s hcf.1).1 _ _ hl)
          · cases h; exact (ihe l s hcf.1).1 _ _ hl
        case err er sl =>
          cases h
          exact (ihe l s hcf.1).2 _ _ hl
        all_goals cases h
    · -- call-free statements preserve the tail of the shape
      intro st s hcf s1 h
      cases hcf with
      | varNone t =>
        simp only [run] at h
        cases h
        exact define_shape_tail s.environment t.lexeme none
      | varSome t e he =>
        simp only [run] at h
        cases hr : run f (.expr e) s <;> rw [hr] at h <;> try dsimp only at h <;> cases h
        rename_i v sv
        have h1 : envShape sv.environment = envShape s.environment := (ihe e s he).1 _ _ hr
        exact (define_shape_tail sv.environment t.lexeme (some v)).trans (by rw [h1])
      | print e he =>
        simp only [run] at h
        cases hr : run f (.expr e) s <;> rw [hr] at h <;> try dsimp only at h <;> cases h
        rename_i v sv
        exact congrArg List.tail ((ihe e s he).1 v sv hr)
      | expression e he =>
        simp only [run] at h
        cases hr : run f (.expr e) s <;> rw [hr] at h <;> try dsimp only at h <;> cases h
        rename_i v sv
        exact congrArg List.tail ((ihe e s he).1 v sv hr)
      | block l hl =>
        simp only [run] at h
        exact congrArg List.tail (ihb l s hl s1 h)
      | ifNone c b1 hc hb1 =>
        simp only [run] at h
        cases hr : run f (.expr c) s <;> rw [hr] at h <;> try dsimp only at h
        case val v sv =>
          split at h
          · exact (ihst b1 sv hb1 s1 h).trans
              (congrArg List.tail ((ihe c s hc).1 _ _ hr))
          · cases h
            exact congrArg List.tail ((ihe c s hc).1 _ _ hr)
        case err er sv =>
          cases h
          exact congrArg List.tail ((ihe c s hc).2 _ _ hr)
        all_goals cases h
      | ifSome c b1 b2 hc hb1 hb2 =>
        simp only [run] at h
        cases hr : run f (.expr c) s <;> rw [hr] at h <;> try dsimp only at h
        case val v sv =>
          split at h
          · exact (ihst b1 sv hb1 s1 h).trans
              (congrArg List.tail ((ihe c s hc).1 _ _ hr))
          · exact (ihst b2 sv hb2 s1 h).trans
              (congrArg List.tail ((ihe c s hc).1 _ _ hr))
        case err er sv =>
          cases h
          exact congrArg List.tail ((ihe c s hc).2 _ _ hr)
        all_goals cases h
      | whileS c b hc hb =>
        simp only [run] at h
        cases hr : run f (.expr c) s <;> rw [hr] at h <;> try dsimp only at h
        case val v sv =>
          split at h
          · cases hb2 : run f (.stmt b) sv <;> rw [hb2] at h <;> try dsimp only at h <;>
              try (cases h <;> done)
            rename_i s2
            exact (ihst _ s2 (CallFreeStmt.whileS c b hc hb) s1 h).trans
              ((ihst b sv hb s2 hb2).trans (congrArg List.tail ((ihe c s hc).1 _ _ hr)))
          · cases h
            exact congrArg List.tail ((ihe c s hc).1 _ _ hr)
        case err er sv =>
          cases h
          exact congrArg List.tail ((ihe c s hc).2 _ _ hr)
        all_goals cases h
      | funDecl n ps body =>
        simp only [run] at h
        cases h
        exact define_shape_tail s.environment n.lexeme _
    · -- statement lists
      intro l s hcf s1 h
      cases hcf with
      | nil => simp only [run] at h; cases h; rfl
      | cons st rest hst hrest =>
        simp only [run] at h
        cases hr : run f (.stmt st) s <;> rw [hr] at h <;> try dsimp only at h <;>
          try (cases h <;> done)
        rename_i s2
        exact (ihl rest s2 hrest s1 h).trans (ihst st s hst s2 hr)
    · -- blocks with no supplied frame restore the full shape
      intro l s hcf s1 h
      simp only [run] at h
      cases hr : run f (.stmts l)
          { s with environment := .mk (some s.environment) [] } <;>
        rw [hr] at h <;> try dsimp only at h <;> try (cases h <;> done)
      rename_i s2
      have htail := ihl l _ hcf s2 hr
      have hsh : (envShape s2.environment).tail = envShape s.environment := by
        rw [htail]; rfl
      have hne : (envShape s2.environment).tail ≠ [] := by
        rw [hsh]; exact envShape_ne_nil s.environment
      obtain ⟨e2, henc, hse⟩ := pop_frame s2.environment hne
      rw [henc] at h
      cases h
      rw [hse, hsh]

/-- C1 (amended): entering a block statement pushes a fresh frame whose
enclosing link is the previous current frame; when the block's statements
perform no function call, finishing the block restores an environment of
exactly the shape (names per frame along the chain) of the one current
before entry — the previous frame with assignments to outer variables
applied in place.  (After a user-defined function call no such restore
happens: the call frame has no enclosing link and stays current, see the
counterexample.) -/
theorem callfree_block_restores_shape :
    ∀ (fuel : Nat) (stmts : List Stmt) (s s1 : InterpState),
      CallFreeStmts stmts →
      run fuel (.stmt (.Block stmts)) s = .done s1 →
      envShape s1.environment = envShape s.environment := by
  intro fuel stmts s s1 hcf h
  cases fuel with
  | zero => simp [run] at h
  | succ f =>
    simp only [run] at h
    exact (shape_invariant f).2.2.2 stmts s hcf s1 h

/-- Witness for C1's amended theorem: a call-free block that defines a local
and assigns to the outer variable finishes with the outer frame current, the
assignment applied, and the shape of the environment unchanged. -/
theorem callfree_block_restores_shape_witness :
    CallFreeStmts demoBlockStmts ∧
    run 9 (.stmt (.Block demoBlockStmts)) demoState =
      .done ⟨.mk none [("x", some (.string "three"))], ["three"]⟩ ∧
    envShape (Environment.mk none [("x", some (.string "three"))]) =
      envShape demoState.environment := by
  have hcf : CallFreeStmts demoBlockStmts :=
    .cons _ _ (.varSome _ _ rfl) (.cons _ _ (.expression _ rfl) .nil)
  exact ⟨hcf, rfl,
    callfree_block_restores_shape 9 demoBlockStmts demoState
      ⟨.mk none [("x", some (.string "three"))], ["three"]⟩ hcf rfl⟩

end Lox
